import Mathlib

/-
Verification of the video-frames and scrapper services of the trender
repository (apps/video-frames/main.py, apps/scrapper/main.py).

The services are thin wrappers around external processes (ffmpeg/ffprobe,
a scraping library).  We embed the pure decision logic of each handler:
probe results (duration, dimensions, pixel aspect ratio, audio presence)
are abstracted into a `Probe` record of functions from file contents to
probe outcomes, and each handler becomes a pure function from the probe
record and the request parameters to an outcome describing the HTTP
response and the exact external-tool argument vector it constructs.
Python floats are embedded as rationals; Python truthiness of a probed
float (`if original_duration:`) is embedded as the value being nonzero.
-/

/-- Contents of an uploaded file, abstracted to a list of bytes. -/
abbrev Bytes := List ℕ

/-- One entry of an external-tool argument vector.  `lit` is a literal
string, `num q` is the rendering `str(x)` of a numeric value, and the
remaining constructors keep the numeric values interpolated into the
filter strings the code builds visible:
`fps r` stands for `f"fps={r}"`,
`scale w` for `f"scale={w}:-2"`,
`colorSrc w h d` for `f"color=c=black:s={w}x{h}:d={d}:r=30"`,
`concatFilterWithAudio e` for the filter_complex string built when the
source has an audio stream (`[2:a]atrim=0:{e}[black_audio];
[0:v][0:a][1:v][black_audio]concat=n=2:v=1:a=1[outv][outa]`), and
`concatFilterNoAudio c e` for the one built when it does not
(`[2:a]atrim=0:{c}[orig_audio];[3:a]atrim=0:{e}[black_audio];
[0:v][orig_audio][1:v][black_audio]concat=n=2:v=1:a=1[outv][outa]`). -/
inductive Arg where
  | lit (s : String)
  | num (q : ℚ)
  | fps (rate : ℚ)
  | scale (target_width : ℤ)
  | colorSrc (w h : ℤ) (d : ℚ)
  | concatFilterWithAudio (extension_duration : ℚ)
  | concatFilterNoAudio (current_duration extension_duration : ℚ)
  deriving DecidableEq

/-- The ffprobe-backed helpers of the service (get_video_duration,
get_video_dimensions, get_video_par, has_audio_stream), abstracted as
functions of the probed file's contents.  `none` models the helper's
exception path, which returns `None`. -/
structure Probe where
  duration : Bytes → Option ℚ
  dims : Bytes → Option (ℤ × ℤ)
  par : Bytes → Option (ℤ × ℤ)
  has_audio : Bytes → Bool

/-- The parse performed by get_video_par on the stripped ffprobe output:
empty, "N/A" and "1:1" all give (1, 1); otherwise the text is split on
":" and both parts are parsed as integers, any failure giving None. -/
def get_video_par_parse (sar : String) : Option (ℤ × ℤ) :=
  if sar = "" ∨ sar = "N/A" ∨ sar = "1:1" then some (1, 1)
  else
    match sar.splitOn ":" with
    | [a, b] =>
      match a.toInt?, b.toInt? with
      | some x, some y => some (x, y)
      | _, _ => none
    | _ => none

/-- The first argument following the literal flag `flag` in an argument
vector, if any. -/
def arg_after (flag : String) : List Arg → Option Arg
  | [] => none
  | Arg.lit s :: rest => if s = flag then rest.head? else arg_after flag rest
  | _ :: rest => arg_after flag rest

/-- The `-q:v` value the extraction commands compute:
`max(1, min(31, 31 - JPEG_QUALITY // 3))`, with Python's floor
division. -/
def q_v_value (jpeg_quality : ℤ) : ℤ :=
  max 1 (min 31 (31 - Int.fdiv jpeg_quality 3))

/-- The quality mapping as the spec words it: `31 − quality/3` clamped
to the interval [1, 31]. -/
def quality_spec (q : ℤ) : ℤ :=
  min 31 (max 1 (31 - q / 3))

/-- Argument vector built by extract_frames_ffmpeg. -/
def extract_frames_cmd (video_path output_pattern : String)
    (interval_sec : ℚ) (max_frames : ℕ) (jpeg_quality : ℤ) : List Arg :=
  [Arg.lit "ffmpeg",
   Arg.lit "-i", Arg.lit video_path,
   Arg.lit "-vf", Arg.fps (1 / interval_sec),
   Arg.lit "-frames:v", Arg.num max_frames,
   Arg.lit "-q:v", Arg.num (q_v_value jpeg_quality),
   Arg.lit "-f", Arg.lit "image2",
   Arg.lit output_pattern,
   Arg.lit "-y"]

/-- Argument vector built by extract_frame_at_time. -/
def extract_frame_at_time_cmd (video_path output_path : String)
    (timestamp : ℚ) (jpeg_quality : ℤ) : List Arg :=
  [Arg.lit "ffmpeg",
   Arg.lit "-ss", Arg.num timestamp,
   Arg.lit "-i", Arg.lit video_path,
   Arg.lit "-frames:v", Arg.num 1,
   Arg.lit "-q:v", Arg.num (q_v_value jpeg_quality),
   Arg.lit output_path,
   Arg.lit "-y"]

/-- Argument vector built by extract_frames_in_range: interval is
range-duration / max_frames (or the full duration when max_frames ≤ 1),
seek is positioned before the input. -/
def extract_frames_in_range_cmd (video_path output_pattern : String)
    (start_time end_time : ℚ) (max_frames : ℕ) (jpeg_quality : ℤ) : List Arg :=
  let duration := end_time - start_time
  let interval := if 1 < max_frames then duration / max_frames else duration
  let fps_value := if 0 < interval then 1 / interval else 1
  [Arg.lit "ffmpeg",
   Arg.lit "-ss", Arg.num start_time,
   Arg.lit "-i", Arg.lit video_path,
   Arg.lit "-t", Arg.num duration,
   Arg.lit "-vf", Arg.fps fps_value,
   Arg.lit "-frames:v", Arg.num max_frames,
   Arg.lit "-q:v", Arg.num (q_v_value jpeg_quality),
   Arg.lit "-f", Arg.lit "image2",
   Arg.lit output_pattern,
   Arg.lit "-y"]

/-- Argument vector built by resize_video_ffmpeg: scale to the target
width, height derived to keep the aspect ratio and forced even. -/
def resize_video_ffmpeg_cmd (video_path output_path : String)
    (target_width : ℤ) : List Arg :=
  [Arg.lit "ffmpeg",
   Arg.lit "-i", Arg.lit video_path,
   Arg.lit "-vf", Arg.scale target_width,
   Arg.lit "-c:v", Arg.lit "libx264",
   Arg.lit "-preset", Arg.lit "fast",
   Arg.lit "-c:a", Arg.lit "copy",
   Arg.lit "-movflags", Arg.lit "+faststart",
   Arg.lit output_path,
   Arg.lit "-y"]

/-- Argument vector built by trim_video_ffmpeg: `-ss` before `-i` for a
fast seek, then `-t` with duration = end_time - start_time. -/
def trim_video_ffmpeg (video_path output_path : String)
    (start_time end_time : ℚ) : List Arg :=
  let duration := end_time - start_time
  [Arg.lit "ffmpeg",
   Arg.lit "-ss", Arg.num start_time,
   Arg.lit "-i", Arg.lit video_path,
   Arg.lit "-t", Arg.num duration,
   Arg.lit "-c:v", Arg.lit "libx264",
   Arg.lit "-c:a", Arg.lit "aac",
   Arg.lit "-preset", Arg.lit "fast",
   Arg.lit "-movflags", Arg.lit "+faststart",
   Arg.lit output_path,
   Arg.lit "-y"]

/-- Outcome of the /resize handler: a 4xx/5xx error, a passthrough of
the original upload (the branch that returns before any ffmpeg encode
is invoked, with the X-Resized header value recorded), or a re-encode
whose argument vector is recorded. -/
inductive ResizeOutcome where
  | error (status : ℕ) (detail : String)
  | passthrough (body : Bytes) (x_new_width : ℤ) (x_resized : Bool)
  | reencode (cmd : List Arg) (x_resized : Bool)
  deriving DecidableEq

/-- The /resize handler: validates min_width and target_width, probes
dimensions, then either upscales to min_width (width < min_width),
upscales to target_width (width < target_width), or streams the
original upload back with X-Resized "false". -/
def resize_video (p : Probe) (content : Bytes)
    (min_width target_width : ℤ) : ResizeOutcome :=
  if min_width ≤ 0 then ResizeOutcome.error 400 "min_width must be positive"
  else if target_width < min_width then
    ResizeOutcome.error 400 "target_width must be >= min_width"
  else
    match p.dims content with
    | none => ResizeOutcome.error 400 "Could not determine video dimensions"
    | some (original_width, _original_height) =>
      if original_width < min_width then
        ResizeOutcome.reencode
          (resize_video_ffmpeg_cmd "input_video.mp4" "output_resized.mp4" min_width) true
      else if original_width < target_width then
        ResizeOutcome.reencode
          (resize_video_ffmpeg_cmd "input_video.mp4" "output_resized.mp4" target_width) true
      else
        ResizeOutcome.passthrough content original_width false

/-- The width-selection step of the /normalize handler (its Step 2),
applied to the width probed after the PAR step: the same
min/target policy as /resize, the width staying unchanged when it is
already at least target_width. -/
def normalize_new_width (min_width target_width original_width : ℤ) : ℤ :=
  if original_width < min_width then min_width
  else if original_width < target_width then target_width
  else original_width

/-- Outcome of the /trim handler: a 4xx error or a trim invocation. -/
inductive TrimOutcome where
  | error (status : ℕ) (detail : String)
  | trim (cmd : List Arg)
  deriving DecidableEq

/-- The /trim handler: validates 0 ≤ start_time < end_time, clamps
end_time to the probed duration when that probe is truthy and end_time
exceeds it, then invokes trim_video_ffmpeg. -/
def trim_video (p : Probe) (content : Bytes)
    (start_time end_time : ℚ) : TrimOutcome :=
  if start_time < 0 then TrimOutcome.error 400 "start_time must be non-negative"
  else if end_time ≤ start_time then
    TrimOutcome.error 400 "end_time must be greater than start_time"
  else
    let clamped_end :=
      match p.duration content with
      | some d => if d ≠ 0 ∧ d < end_time then d else end_time
      | none => end_time
    TrimOutcome.trim
      (trim_video_ffmpeg "input_video.mp4" "output_trimmed.mp4" start_time clamped_end)

/-- Argument vector built by normalize_video_par when the probed PAR is
not (1, 1): a scale-by-SAR-then-reset-SAR filter re-encode. -/
def normalize_par_cmd (video_path output_path : String) : List Arg :=
  [Arg.lit "ffmpeg",
   Arg.lit "-i", Arg.lit video_path,
   Arg.lit "-vf", Arg.lit "scale=iw*sar:ih,setsar=1",
   Arg.lit "-c:v", Arg.lit "libx264",
   Arg.lit "-preset", Arg.lit "fast",
   Arg.lit "-c:a", Arg.lit "copy",
   Arg.lit "-movflags", Arg.lit "+faststart",
   Arg.lit output_path,
   Arg.lit "-y"]

/-- Action taken by normalize_video_par: a byte copy of the input when
its probed PAR is already (1, 1), and otherwise the re-encode command. -/
inductive ParNormAction where
  | copy
  | encode (cmd : List Arg)
  deriving DecidableEq

/-- normalize_video_par: probe the PAR; if it is (1, 1), copy the file
without invoking the tool; otherwise run the SAR-reset re-encode. -/
def normalize_video_par (p : Probe) (content : Bytes) : ParNormAction :=
  if p.par content = some (1, 1) then ParNormAction.copy
  else ParNormAction.encode (normalize_par_cmd "input_video.mp4" "normalized_video.mp4")

/-- The bytes normalize_video_par leaves in its output file, with the
re-encode's output abstracted as a function `enc` of the input bytes:
the copy branch writes the input bytes unchanged. -/
def normalize_video_par_run (p : Probe) (enc : Bytes → Bytes) (content : Bytes) : Bytes :=
  if p.par content = some (1, 1) then content else enc content

/-- How /detect-scenes resolves the PAR-normalization step: detection
runs on the normalized file, or the request fails with a 500, or
detection is retried on the original upload. -/
inductive SceneNormStep where
  | useNormalized
  | error500 (non_square_par : ℤ × ℤ)
  | useOriginal
  deriving DecidableEq

/-- Whether the step is the 500 failure. -/
def SceneNormStep.isError : SceneNormStep → Bool
  | SceneNormStep.error500 _ => true
  | _ => false

/-- The PAR-normalization step of /detect-scenes.  normalize_video_par
can only raise its re-encode failure on the branch where the probed PAR
is not (1, 1); `encode_fails` says whether that re-encode fails.  On
failure the handler raises a 500 when the probed PAR is a tuple other
than (1, 1) and otherwise falls back to the original upload. -/
def detect_scenes_norm_step (p : Probe) (content : Bytes)
    (encode_fails : Bool) : SceneNormStep :=
  if p.par content = some (1, 1) then SceneNormStep.useNormalized
  else if encode_fails then
    match p.par content with
    | some pr => if pr ≠ (1, 1) then SceneNormStep.error500 pr else SceneNormStep.useOriginal
    | none => SceneNormStep.useOriginal
  else SceneNormStep.useNormalized

/-- Argument vector built by extend_video_with_black when the source has
an audio stream: the original file, one black lavfi color source of the
deficit duration, and one anullsrc lavfi source, glued by the
with-audio concat filter graph. -/
def extend_with_audio_cmd (video_path output_path : String)
    (width height : ℤ) (extension_duration : ℚ) : List Arg :=
  [Arg.lit "ffmpeg",
   Arg.lit "-i", Arg.lit video_path,
   Arg.lit "-f", Arg.lit "lavfi",
   Arg.lit "-i", Arg.colorSrc width height extension_duration,
   Arg.lit "-f", Arg.lit "lavfi",
   Arg.lit "-i", Arg.lit "anullsrc=channel_layout=stereo:sample_rate=44100",
   Arg.lit "-filter_complex", Arg.concatFilterWithAudio extension_duration,
   Arg.lit "-map", Arg.lit "[outv]",
   Arg.lit "-map", Arg.lit "[outa]",
   Arg.lit "-c:v", Arg.lit "libx264",
   Arg.lit "-c:a", Arg.lit "aac",
   Arg.lit "-preset", Arg.lit "fast",
   Arg.lit "-movflags", Arg.lit "+faststart",
   Arg.lit output_path,
   Arg.lit "-y"]

/-- Argument vector built by extend_video_with_black when the source
lacks an audio stream: two anullsrc lavfi sources supply silent audio
for the original part and the black part, glued by the no-audio concat
filter graph. -/
def extend_no_audio_cmd (video_path output_path : String)
    (width height : ℤ) (current_duration extension_duration : ℚ) : List Arg :=
  [Arg.lit "ffmpeg",
   Arg.lit "-i", Arg.lit video_path,
   Arg.lit "-f", Arg.lit "lavfi",
   Arg.lit "-i", Arg.colorSrc width height extension_duration,
   Arg.lit "-f", Arg.lit "lavfi",
   Arg.lit "-i", Arg.lit "anullsrc=channel_layout=stereo:sample_rate=44100",
   Arg.lit "-f", Arg.lit "lavfi",
   Arg.lit "-i", Arg.lit "anullsrc=channel_layout=stereo:sample_rate=44100",
   Arg.lit "-filter_complex", Arg.concatFilterNoAudio current_duration extension_duration,
   Arg.lit "-map", Arg.lit "[outv]",
   Arg.lit "-map", Arg.lit "[outa]",
   Arg.lit "-c:v", Arg.lit "libx264",
   Arg.lit "-c:a", Arg.lit "aac",
   Arg.lit "-preset", Arg.lit "fast",
   Arg.lit "-movflags", Arg.lit "+faststart",
   Arg.lit output_path,
   Arg.lit "-y"]

/-- Action taken by extend_video_with_black: a plain byte copy when the
probed duration already meets the target, or an encode invocation. -/
inductive ExtendAction where
  | copy
  | encode (cmd : List Arg)
  deriving DecidableEq

/-- extend_video_with_black: a falsy duration probe raises; a duration
already at or above the target copies the file; otherwise the probed
dimensions and audio presence pick one of the two filter-graph
commands, with extension_duration = target - current. -/
def extend_video_with_black (p : Probe) (content : Bytes)
    (target_duration : ℚ) : Except String ExtendAction :=
  match p.duration content with
  | none => Except.error "Could not determine video duration"
  | some current_duration =>
    if current_duration = 0 then Except.error "Could not determine video duration"
    else if target_duration ≤ current_duration then Except.ok ExtendAction.copy
    else
      match p.dims content with
      | none => Except.error "Could not determine video dimensions"
      | some (width, height) =>
        let extension_duration := target_duration - current_duration
        if p.has_audio content then
          Except.ok (ExtendAction.encode
            (extend_with_audio_cmd "input_video.mp4" "output_extended.mp4"
              width height extension_duration))
        else
          Except.ok (ExtendAction.encode
            (extend_no_audio_cmd "input_video.mp4" "output_extended.mp4"
              width height current_duration extension_duration))

/-- Outcome of the /extend-duration handler: an error, a stream of the
unmodified upload (X-Extended "false"), or a stream of the output of an
extension action (X-Extended "true"). -/
inductive ExtendOutcome where
  | error (status : ℕ) (detail : String)
  | unchanged (body : Bytes) (x_extended : Bool)
  | extended (action : ExtendAction) (x_extended : Bool)
  deriving DecidableEq

/-- The /extend-duration handler: validates target_duration, rejects a
falsy duration probe with a 400, byte-copies the upload when the probed
duration already reaches the target, and otherwise extends it,
reporting extension failures as a 500. -/
def extend_duration (p : Probe) (content : Bytes)
    (target_duration : ℚ) : ExtendOutcome :=
  if target_duration ≤ 0 then ExtendOutcome.error 400 "target_duration must be positive"
  else
    match p.duration content with
    | none => ExtendOutcome.error 400 "Could not determine video duration"
    | some original_duration =>
      if original_duration = 0 then
        ExtendOutcome.error 400 "Could not determine video duration"
      else if original_duration < target_duration then
        match extend_video_with_black p content target_duration with
        | Except.error e => ExtendOutcome.error 500 e
        | Except.ok a => ExtendOutcome.extended a true
      else ExtendOutcome.unchanged content false

/-- The quote escaping concat_videos_ffmpeg applies to each path written
into the concat list file: each single quote becomes the four characters
quote backslash quote quote. -/
def escape_single_quotes (path : String) : String :=
  path.replace "\x27" "\x27\\\x27\x27"

/-- One line of the concat list file: file, a space, the escaped path
wrapped in single quotes, and a newline. -/
def concat_list_line (path : String) : String :=
  "file \x27" ++ escape_single_quotes path ++ "\x27\n"

/-- The full contents of the concat list file for the given paths. -/
def concat_list_file (paths : List String) : String :=
  String.join (paths.map concat_list_line)

/-- Argument vector built by concat_videos_ffmpeg: the concat demuxer
over the list file with stream copy. -/
def concat_videos_ffmpeg_cmd (concat_file output_path : String) : List Arg :=
  [Arg.lit "ffmpeg",
   Arg.lit "-f", Arg.lit "concat",
   Arg.lit "-safe", Arg.lit "0",
   Arg.lit "-i", Arg.lit concat_file,
   Arg.lit "-c", Arg.lit "copy",
   Arg.lit "-movflags", Arg.lit "+faststart",
   Arg.lit output_path,
   Arg.lit "-y"]

/-- Zero-padded rendering of f-string formatting {i:03d} for the saved
upload names. -/
def pad3 (n : ℕ) : String :=
  let s := toString n
  String.mk (List.replicate (3 - s.length) '0') ++ s

/-- Outcome of the /concat handler: a 400 validation error raised
before any file is written or tool invoked, or the concat run with the
list-file contents and the demuxer argument vector. -/
inductive ConcatOutcome where
  | error (status : ℕ) (detail : String)
  | run (list_file : String) (cmd : List Arg)
  deriving DecidableEq

/-- The /concat handler: fewer than 2 or more than 20 uploads are
rejected with a 400 before anything else happens; otherwise the uploads
are saved as video_000.mp4, video_001.mp4, ... and the concat demuxer
is invoked over the escaped list file. -/
def concat_videos (videos : List Bytes) : ConcatOutcome :=
  if videos.length < 2 then
    ConcatOutcome.error 400 "At least 2 videos required for concatenation"
  else if 20 < videos.length then
    ConcatOutcome.error 400 "Maximum 20 videos allowed"
  else
    let paths := (List.range videos.length).map
      (fun i => "video_" ++ pad3 i ++ ".mp4")
    ConcatOutcome.run (concat_list_file paths)
      (concat_videos_ffmpeg_cmd "concat_list.txt" "output.mp4")

/-- The collection loop shared by extract_frames_ffmpeg and
extract_frames_in_range: for i in range(1, max_frames + 1), append
frame i while its file exists, stopping at the first missing index.
`ex` says which numbered frame files the tool left on disk; the
returned list holds the collected frame numbers. -/
def collect_from (ex : ℕ → Bool) : ℕ → ℕ → List ℕ
  | _, 0 => []
  | i, k + 1 => if ex i then i :: collect_from ex (i + 1) k else []

/-- Frame collection starting at index 1, as both extraction helpers
run it. -/
def collect_frames (ex : ℕ → Bool) (max_frames : ℕ) : List ℕ :=
  collect_from ex 1 max_frames

/-- The frame-path list extract_frames_in_range returns: an empty list
when the range duration is not positive, and otherwise the collection
loop over the files the tool produced. -/
def extract_frames_in_range_paths (ex : ℕ → Bool)
    (start_time end_time : ℚ) (max_frames : ℕ) : List ℕ :=
  if end_time - start_time ≤ 0 then []
  else collect_frames ex max_frames

/-- The FramesResponse model shared by /extract-frames,
/extract-frames-from-bytes and /extract-frames-range: the frames field
holds one base64 entry per collected frame file, abstracted here to the
frame numbers themselves. -/
structure FramesResponse where
  success : Bool
  frames : List ℕ
  count : ℕ
  interval_sec : ℚ
  deriving DecidableEq

/-- How all three frame-extraction endpoints build their FramesResponse
from the collected frame paths: an empty collection gives success
false, no frames and count 0; otherwise success true with count the
length of the encoded list. -/
def extract_frames_response (frame_paths : List ℕ)
    (interval_sec : ℚ) : FramesResponse :=
  if frame_paths = [] then
    { success := false, frames := [], count := 0, interval_sec := interval_sec }
  else
    { success := true, frames := frame_paths, count := frame_paths.length,
      interval_sec := interval_sec }

/-- Modelled from the spec: the external tool is outside this
repository, and the spec states that frame extraction over a video of
duration d with interval I samples at rate 1/I, so the tool emits
floor(d / I) frames before the -frames:v cap; with the cap max_frames
it therefore writes the numbered files frame_0001 .. frame_N with
N = min max_frames (floor (d / I)). -/
def ffmpeg_frames_written (duration interval_sec : ℚ) (max_frames : ℕ) : ℕ :=
  min max_frames (Int.toNat ⌊duration / interval_sec⌋)

/-- A Python attribute value as the scrapper's safe_int sees it. -/
inductive PyVal where
  | pynone
  | int (n : ℤ)
  | str (s : String)
  | other
  deriving DecidableEq

/-- The scrapper's safe_int: None stays None, an int is returned, a
string is parsed as an integer, and any value whose conversion raises
becomes None. -/
def safe_int (v : PyVal) : Option ℤ :=
  match v with
  | PyVal.pynone => none
  | PyVal.int n => some n
  | PyVal.str s => s.toInt?
  | PyVal.other => none

/-- The post attributes the /metadata handler reads for its view-count
resolution. -/
structure Post where
  play_count : PyVal
  video_view_count : PyVal

/-- The viewCount resolution of /metadata: play_count when safe_int
accepts it, otherwise the safe_int of video_view_count. -/
def reel_metadata_view_count (post : Post) : Option ℤ :=
  let play_count := safe_int post.play_count
  let video_view_count := safe_int post.video_view_count
  match play_count with
  | some n => some n
  | none => video_view_count

/-- The invariant the claims state for a FramesResponse: count matches
the frames list, the list is capped by max_frames, and success holds
exactly when at least one frame was collected. -/
def frames_response_invariant (r : FramesResponse) (max_frames : ℕ) : Prop :=
  r.count = r.frames.length ∧ r.frames.length ≤ max_frames ∧
    (r.success = true ↔ r.frames ≠ [])

/-- A probe of a square-pixel ten-second 640x480 clip with audio, used
to instantiate the handler theorems. -/
def probe_square : Probe where
  duration := fun _ => some 10
  dims := fun _ => some (640, 480)
  par := fun _ => some (1, 1)
  has_audio := fun _ => true

/-- A probe of an anamorphic (PAR 4:3) two-second 720x576 clip without
audio, used to instantiate the handler theorems. -/
def probe_anamorphic : Probe where
  duration := fun _ => some 2
  dims := fun _ => some (720, 576)
  par := fun _ => some (4, 3)
  has_audio := fun _ => false

theorem collect_from_length_le (ex : ℕ → Bool) :
    ∀ (k i : ℕ), (collect_from ex i k).length ≤ k := by
  intro k
  induction k with
  | zero => intro i; simp [collect_from]
  | succ k ih =>
    intro i
    by_cases h : ex i
    · simpa [collect_from, h] using ih (i + 1)
    · simp [collect_from, h]

theorem collect_from_spec (ex : ℕ → Bool) :
    ∀ (k i : ℕ), ∃ c, c ≤ k ∧
      collect_from ex i k = (List.range c).map (fun j => i + j) ∧
      (∀ j, j < c → ex (i + j) = true) ∧
      (c < k → ex (i + c) = false) := by
  intro k
  induction k with
  | zero =>
    intro i
    exact ⟨0, le_refl 0, by simp [collect_from], by intro j hj; omega, by intro h; omega⟩
  | succ k ih =>
    intro i
    by_cases h : ex i
    · obtain ⟨c, hck, heq, hall, hstop⟩ := ih (i + 1)
      refine ⟨c + 1, by omega, ?_, ?_, ?_⟩
      · rw [show collect_from ex i (k + 1) = i :: collect_from ex (i + 1) k from by
          simp [collect_from, h]]
        rw [heq, List.range_succ_eq_map, List.map_cons, List.map_map]
        refine congrArg₂ List.cons (by omega) ?_
        refine List.map_congr_left ?_
        intro j _
        simp [Function.comp]
        omega
      · intro j hj
        cases j with
        | zero => simpa using h
        | succ j' =>
          have := hall j' (by omega)
          have harg : i + (j' + 1) = i + 1 + j' := by omega
          rw [harg]
          exact this
      · intro hlt
        have := hstop (by omega)
        have harg : i + (c + 1) = i + 1 + c := by omega
        rw [harg]
        exact this
    · exact ⟨0, by omega, by simp [collect_from, h], by intro j hj; omega,
        by intro _; simpa using h⟩

/-- C1: width-selection policy of /resize (shared with /normalize).
With a probed width w: w < min_width re-encodes to width min_width;
min_width ≤ w < target_width re-encodes to width target_width; and
w ≥ target_width streams the uploaded bytes back byte-identical, with
no re-encode invocation and X-Resized false.  In each case the
/normalize width-selection step chooses the same new width. -/
theorem C1_resize_width_policy (p : Probe) (content : Bytes)
    (min_width target_width w h : ℤ)
    (hmin : 0 < min_width) (hmt : min_width ≤ target_width)
    (hdims : p.dims content = some (w, h)) :
    (w < min_width →
      resize_video p content min_width target_width =
        ResizeOutcome.reencode
          (resize_video_ffmpeg_cmd "input_video.mp4" "output_resized.mp4" min_width)
          true ∧
      normalize_new_width min_width target_width w = min_width) ∧
    (min_width ≤ w → w < target_width →
      resize_video p content min_width target_width =
        ResizeOutcome.reencode
          (resize_video_ffmpeg_cmd "input_video.mp4" "output_resized.mp4" target_width)
          true ∧
      normalize_new_width min_width target_width w = target_width) ∧
    (target_width ≤ w →
      resize_video p content min_width target_width =
        ResizeOutcome.passthrough content w false ∧
      normalize_new_width min_width target_width w = w) := by
  have h1 : ¬ (min_width ≤ 0) := by omega
  have h2 : ¬ (target_width < min_width) := by omega
  refine ⟨fun hw => ?_, fun hw1 hw2 => ?_, fun hw => ?_⟩
  · constructor
    · simp [resize_video, h1, h2, hdims, hw]
    · simp [normalize_new_width, hw]
  · constructor
    · simp [resize_video, h1, h2, hdims, hw2, show ¬ (w < min_width) from by omega]
    · simp [normalize_new_width, hw2, show ¬ (w < min_width) from by omega]
  · constructor
    · simp [resize_video, h1, h2, hdims,
        show ¬ (w < min_width) from by omega, show ¬ (w < target_width) from by omega]
    · simp [normalize_new_width,
        show ¬ (w < min_width) from by omega, show ¬ (w < target_width) from by omega]

theorem C1_resize_width_policy_witness :
    (0 : ℤ) < 720 ∧ (720 : ℤ) ≤ 1080 ∧ probe_square.dims [] = some (640, 480) ∧
    ((640 : ℤ) < 720 →
      resize_video probe_square [] 720 1080 =
        ResizeOutcome.reencode
          (resize_video_ffmpeg_cmd "input_video.mp4" "output_resized.mp4" 720) true ∧
      normalize_new_width 720 1080 640 = 720) :=
  ⟨by norm_num, by norm_num, rfl,
    (C1_resize_width_policy probe_square [] 720 1080 640 480
      (by norm_num) (by norm_num) rfl).1⟩

/-- C2: for a /trim request with 0 ≤ start_time < end_time on a source
whose probed duration is positive, the effective end time is end_time
clamped to the probed duration; the tool is invoked with the seek value
start_time placed before the input and a -t duration argument equal to
the clamped end time minus start_time. -/
theorem C2_trim_clamps_and_seeks (p : Probe) (content : Bytes)
    (start_time end_time d : ℚ)
    (hs : 0 ≤ start_time) (hse : start_time < end_time)
    (hd : p.duration content = some d) (hdpos : 0 < d) :
    trim_video p content start_time end_time =
      TrimOutcome.trim
        (trim_video_ffmpeg "input_video.mp4" "output_trimmed.mp4"
          start_time (min end_time d)) ∧
    List.take 4
      (trim_video_ffmpeg "input_video.mp4" "output_trimmed.mp4"
        start_time (min end_time d)) =
      [Arg.lit "ffmpeg", Arg.lit "-ss", Arg.num start_time, Arg.lit "-i"] ∧
    arg_after "-t"
      (trim_video_ffmpeg "input_video.mp4" "output_trimmed.mp4"
        start_time (min end_time d)) =
      some (Arg.num (min end_time d - start_time)) := by
  refine ⟨?_, rfl, rfl⟩
  have h1 : ¬ (start_time < 0) := by linarith
  have h2 : ¬ (end_time ≤ start_time) := by linarith
  simp only [trim_video, h1, h2, if_false, hd]
  by_cases hcl : d < end_time
  · have : min end_time d = d := by
      exact min_eq_right (le_of_lt hcl)
    rw [this]
    simp [ne_of_gt hdpos, hcl]
  · have : min end_time d = end_time := by
      exact min_eq_left (by linarith)
    rw [this]
    simp [hcl]

theorem C2_trim_clamps_and_seeks_witness :
    (0 : ℚ) ≤ 1 ∧ (1 : ℚ) < 20 ∧ probe_square.duration [] = some 10 ∧ (0 : ℚ) < 10 ∧
    trim_video probe_square [] 1 20 =
      TrimOutcome.trim
        (trim_video_ffmpeg "input_video.mp4" "output_trimmed.mp4" 1 (min 20 10)) :=
  ⟨by norm_num, by norm_num, rfl, by norm_num,
    (C2_trim_clamps_and_seeks probe_square [] 1 20 10
      (by norm_num) (by norm_num) rfl (by norm_num)).1⟩

theorem q_v_value_eq_quality_spec (q : ℤ) (h0 : 0 ≤ q) (h100 : q ≤ 100) :
    q_v_value q = quality_spec q := by
  interval_cases q <;> rfl

/-- C3: for every quality q on the 0–100 input scale, the -q:v value
passed by whole-video extraction, single-frame extraction and range
extraction (at the file names the handlers use) equals 31 − q/3 clamped
to [1, 31]. -/
theorem C3_quality_mapping (q : ℤ) (h0 : 0 ≤ q) (h100 : q ≤ 100)
    (interval_sec start_time end_time timestamp : ℚ) (max_frames : ℕ) :
    arg_after "-q:v"
      (extract_frames_cmd "input_video.mp4" "frame_%04d.jpg" interval_sec max_frames q) =
      some (Arg.num ((quality_spec q : ℤ) : ℚ)) ∧
    arg_after "-q:v"
      (extract_frame_at_time_cmd "input_video.mp4" "thumb_0.jpg" timestamp q) =
      some (Arg.num ((quality_spec q : ℤ) : ℚ)) ∧
    arg_after "-q:v"
      (extract_frames_in_range_cmd "input_video.mp4" "range_frame_%04d.jpg"
        start_time end_time max_frames q) =
      some (Arg.num ((quality_spec q : ℤ) : ℚ)) := by
  rw [← q_v_value_eq_quality_spec q h0 h100]
  exact ⟨rfl, rfl, rfl⟩

theorem C3_quality_mapping_witness :
    (0 : ℤ) ≤ 85 ∧ (85 : ℤ) ≤ 100 ∧
    arg_after "-q:v" (extract_frames_cmd "input_video.mp4" "frame_%04d.jpg" 2 30 85) =
      some (Arg.num ((quality_spec 85 : ℤ) : ℚ)) :=
  ⟨by norm_num, by norm_num,
    (C3_quality_mapping 85 (by norm_num) (by norm_num) 2 0 0 0 30).1⟩

/-- C4: /extend-duration with a positive probed duration already at or
above the target streams the upload back unchanged with X-Extended
false; with a probed duration below the target it invokes the encode
whose black lavfi source has exactly the deficit duration, choosing the
with-audio filter graph when the source has an audio stream and the
(distinct) no-audio filter graph with synthesized silent audio when it
does not. -/
theorem C4_extend_duration (p : Probe) (content : Bytes)
    (target_duration d : ℚ)
    (ht : 0 < target_duration)
    (hd : p.duration content = some d) (hdpos : 0 < d) :
    (target_duration ≤ d →
      extend_duration p content target_duration =
        ExtendOutcome.unchanged content false) ∧
    (d < target_duration → ∀ w h : ℤ, p.dims content = some (w, h) →
      (p.has_audio content = true →
        extend_duration p content target_duration =
          ExtendOutcome.extended
            (ExtendAction.encode
              (extend_with_audio_cmd "input_video.mp4" "output_extended.mp4"
                w h (target_duration - d))) true ∧
        Arg.colorSrc w h (target_duration - d) ∈
          extend_with_audio_cmd "input_video.mp4" "output_extended.mp4"
            w h (target_duration - d)) ∧
      (p.has_audio content = false →
        extend_duration p content target_duration =
          ExtendOutcome.extended
            (ExtendAction.encode
              (extend_no_audio_cmd "input_video.mp4" "output_extended.mp4"
                w h d (target_duration - d))) true ∧
        Arg.colorSrc w h (target_duration - d) ∈
          extend_no_audio_cmd "input_video.mp4" "output_extended.mp4"
            w h d (target_duration - d) ∧
        Arg.lit "anullsrc=channel_layout=stereo:sample_rate=44100" ∈
          extend_no_audio_cmd "input_video.mp4" "output_extended.mp4"
            w h d (target_duration - d)) ∧
      extend_with_audio_cmd "input_video.mp4" "output_extended.mp4"
          w h (target_duration - d) ≠
        extend_no_audio_cmd "input_video.mp4" "output_extended.mp4"
          w h d (target_duration - d)) := by
  have ht0 : ¬ (target_duration ≤ 0) := by linarith
  constructor
  · intro hge
    have : ¬ (d < target_duration) := by linarith
    simp [extend_duration, ht0, hd, ne_of_gt hdpos, this]
  · intro hlt w h hdims
    refine ⟨?_, ?_, ?_⟩
    · intro haud
      constructor
      · simp [extend_duration, extend_video_with_black, ht0, hd, ne_of_gt hdpos, hlt,
          show ¬ (target_duration ≤ d) from by linarith, hdims, haud]
      · simp [extend_with_audio_cmd]
    · intro haud
      refine ⟨?_, ?_, ?_⟩
      · simp [extend_duration, extend_video_with_black, ht0, hd, ne_of_gt hdpos, hlt,
          show ¬ (target_duration ≤ d) from by linarith, hdims, haud]
      · simp [extend_no_audio_cmd]
      · simp [extend_no_audio_cmd]
    · intro hcontra
      have := congrArg List.length hcontra
      simp [extend_with_audio_cmd, extend_no_audio_cmd] at this

theorem C4_extend_duration_witness :
    (0 : ℚ) < 5 ∧ probe_anamorphic.duration [] = some 2 ∧ (0 : ℚ) < 2 ∧
    ((2 : ℚ) < 5) ∧ probe_anamorphic.dims [] = some (720, 576) ∧
    probe_anamorphic.has_audio [] = false ∧
    extend_duration probe_anamorphic [] 5 =
      ExtendOutcome.extended
        (ExtendAction.encode
          (extend_no_audio_cmd "input_video.mp4" "output_extended.mp4"
            720 576 2 (5 - 2))) true :=
  ⟨by norm_num, rfl, by norm_num, by norm_num, rfl, rfl,
    (((C4_extend_duration probe_anamorphic [] 5 2
        (by norm_num) rfl (by norm_num)).2
      (by norm_num) 720 576 rfl).2.1 rfl).1⟩

/-- C5: PAR normalization of a video whose probed PAR is already 1:1 is
a byte-identical copy with no re-encode invocation; consequently,
whenever either the input already probes 1:1 or the re-encode output
probes 1:1, running normalization twice gives the same bytes as running
it once. -/
theorem C5_par_normalization_idempotent (p : Probe) (enc : Bytes → Bytes)
    (content : Bytes) :
    (p.par content = some (1, 1) →
      normalize_video_par p content = ParNormAction.copy ∧
      normalize_video_par_run p enc content = content) ∧
    ((p.par content = some (1, 1) ∨ p.par (enc content) = some (1, 1)) →
      normalize_video_par_run p enc (normalize_video_par_run p enc content) =
        normalize_video_par_run p enc content) := by
  constructor
  · intro hsq
    exact ⟨by simp [normalize_video_par, hsq], by simp [normalize_video_par_run, hsq]⟩
  · intro hor
    by_cases hsq : p.par content = some (1, 1)
    · simp [normalize_video_par_run, hsq]
    · have henc : p.par (enc content) = some (1, 1) := by
        rcases hor with h | h
        · exact absurd h hsq
        · exact h
      have h1 : normalize_video_par_run p enc content = enc content := by
        unfold normalize_video_par_run
        rw [if_neg hsq]
      rw [h1]
      unfold normalize_video_par_run
      rw [if_pos henc]

theorem C5_par_normalization_idempotent_witness :
    probe_square.par [] = some (1, 1) ∧
    normalize_video_par probe_square [] = ParNormAction.copy ∧
    normalize_video_par_run probe_square id [] = [] :=
  ⟨by decide,
    (C5_par_normalization_idempotent probe_square id []).1 (by decide)⟩

/-- C6: the /detect-scenes PAR-normalization step resolves to the 500
failure exactly when the re-encode failed and the probed PAR is a
non-square tuple; under a failure with an unknown PAR, detection is
retried on the original upload, and a square probed PAR never reaches
the failure branch at all. -/
theorem C6_detect_scenes_par_failure (p : Probe) (content : Bytes)
    (encode_fails : Bool) :
    ((detect_scenes_norm_step p content encode_fails).isError = true ↔
      encode_fails = true ∧
        ∃ pr : ℤ × ℤ, p.par content = some pr ∧ pr ≠ (1, 1)) ∧
    (encode_fails = true → p.par content = none →
      detect_scenes_norm_step p content encode_fails = SceneNormStep.useOriginal) ∧
    (p.par content = some (1, 1) →
      detect_scenes_norm_step p content encode_fails = SceneNormStep.useNormalized) := by
  refine ⟨?_, ?_, ?_⟩
  · constructor
    · intro herr
      unfold detect_scenes_norm_step at herr
      by_cases hsq : p.par content = some (1, 1)
      · simp [hsq, SceneNormStep.isError] at herr
      · by_cases hf : encode_fails
        · refine ⟨hf, ?_⟩
          cases hp : p.par content with
          | none => simp [hsq, hf, hp, SceneNormStep.isError] at herr
          | some pr =>
            refine ⟨pr, rfl, ?_⟩
            intro hpr
            rw [hpr] at hp
            exact hsq hp
        · simp [hsq, hf, SceneNormStep.isError] at herr
    · rintro ⟨hf, pr, hp, hpr⟩
      have hsq : ¬ (p.par content = some (1, 1)) := by
        rw [hp]
        simp only [Option.some_inj]
        exact hpr
      unfold detect_scenes_norm_step
      rw [if_neg hsq, hf, if_pos rfl, hp]
      rw [show (match some pr with
          | some prm =>
            if prm ≠ (1, 1) then SceneNormStep.error500 prm else SceneNormStep.useOriginal
          | none => SceneNormStep.useOriginal) =
          (if pr ≠ (1, 1) then SceneNormStep.error500 pr else SceneNormStep.useOriginal)
        from rfl]
      rw [if_pos hpr]
      rfl
  · intro hf hp
    simp [detect_scenes_norm_step, hp, hf]
  · intro hsq
    simp [detect_scenes_norm_step, hsq]

theorem C6_detect_scenes_par_failure_witness :
    probe_anamorphic.par [] = some (4, 3) ∧
    (detect_scenes_norm_step probe_anamorphic [] true).isError = true :=
  ⟨by decide,
    (C6_detect_scenes_par_failure probe_anamorphic [] true).1.2
      ⟨rfl, (4, 3), by decide, by decide⟩⟩

/-- C7: /concat rejects fewer than 2 or more than 20 uploads with a 400
error carrying no invocation; for 2 to 20 uploads it runs the concat
demuxer with stream copy over the list file of single-quote-escaped
saved paths. -/
theorem C7_concat_bounds (videos : List Bytes) :
    (videos.length < 2 →
      concat_videos videos =
        ConcatOutcome.error 400 "At least 2 videos required for concatenation") ∧
    (20 < videos.length →
      concat_videos videos = ConcatOutcome.error 400 "Maximum 20 videos allowed") ∧
    (2 ≤ videos.length → videos.length ≤ 20 →
      concat_videos videos =
        ConcatOutcome.run
          (concat_list_file
            ((List.range videos.length).map (fun i => "video_" ++ pad3 i ++ ".mp4")))
          (concat_videos_ffmpeg_cmd "concat_list.txt" "output.mp4") ∧
      arg_after "-f" (concat_videos_ffmpeg_cmd "concat_list.txt" "output.mp4") =
        some (Arg.lit "concat") ∧
      arg_after "-c" (concat_videos_ffmpeg_cmd "concat_list.txt" "output.mp4") =
        some (Arg.lit "copy")) := by
  refine ⟨?_, ?_, ?_⟩
  · intro hlt
    simp [concat_videos, hlt]
  · intro hgt
    simp [concat_videos, show ¬ (videos.length < 2) from by omega, hgt]
  · intro h2 h20
    refine ⟨?_, rfl, rfl⟩
    simp [concat_videos, show ¬ (videos.length < 2) from by omega,
      show ¬ (20 < videos.length) from by omega]

theorem C7_concat_bounds_witness :
    (2 ≤ [[0], [1], [2]].length ∧ [[0], [1], [2]].length ≤ 20) ∧
    concat_videos [[0], [1], [2]] =
      ConcatOutcome.run
        (concat_list_file
          ((List.range [[0], [1], [2]].length).map
            (fun i => "video_" ++ pad3 i ++ ".mp4")))
        (concat_videos_ffmpeg_cmd "concat_list.txt" "output.mp4") :=
  ⟨⟨by norm_num, by norm_num⟩,
    ((C7_concat_bounds [[0], [1], [2]]).2.2 (by norm_num) (by norm_num)).1⟩

theorem extract_frames_response_count (frame_paths : List ℕ) (interval_sec : ℚ) :
    (extract_frames_response frame_paths interval_sec).count = frame_paths.length ∧
    (extract_frames_response frame_paths interval_sec).frames.length =
      frame_paths.length := by
  by_cases h : frame_paths = [] <;> simp [extract_frames_response, h]

theorem collect_frames_contiguous_length (N M : ℕ) :
    (collect_frames (fun j => decide (1 ≤ j ∧ j ≤ N)) M).length = min M N := by
  obtain ⟨c, hck, heq, hall, hstop⟩ :=
    collect_from_spec (fun j => decide (1 ≤ j ∧ j ≤ N)) M 1
  rw [collect_frames, heq, List.length_map, List.length_range]
  have hcN : c ≤ N := by
    rcases Nat.eq_zero_or_pos c with h0 | hpos
    · omega
    · have := hall (c - 1) (by omega)
      simp only [decide_eq_true_eq] at this
      omega
  rcases lt_or_ge c M with hlt | hge
  · have := hstop hlt
    simp only [decide_eq_false_iff_not, not_and, not_le] at this
    have := this (by omega)
    omega
  · omega

/-- C8: for a source of known duration d, extraction at interval I with
cap M leaves exactly min M ⌊d / I⌋ numbered frame files on disk (tool
side modelled from the spec), the collection loop picks up all of them,
and the response reports that many frames. -/
theorem C8_frame_count (duration interval_sec : ℚ) (max_frames : ℕ)
    (_hI : 0 < interval_sec) (_hd : 0 ≤ duration) :
    (extract_frames_response
        (collect_frames
          (fun j => decide
            (1 ≤ j ∧ j ≤ ffmpeg_frames_written duration interval_sec max_frames))
          max_frames)
        interval_sec).count =
      min max_frames (Int.toNat ⌊duration / interval_sec⌋) ∧
    (extract_frames_response
        (collect_frames
          (fun j => decide
            (1 ≤ j ∧ j ≤ ffmpeg_frames_written duration interval_sec max_frames))
          max_frames)
        interval_sec).frames.length =
      min max_frames (Int.toNat ⌊duration / interval_sec⌋) := by
  have hlen :=
    collect_frames_contiguous_length
      (ffmpeg_frames_written duration interval_sec max_frames) max_frames
  have hcnt :=
    extract_frames_response_count
      (collect_frames
        (fun j => decide
          (1 ≤ j ∧ j ≤ ffmpeg_frames_written duration interval_sec max_frames))
        max_frames)
      interval_sec
  rw [hcnt.1, hcnt.2, hlen, ffmpeg_frames_written]
  constructor <;> omega

theorem C8_frame_count_witness :
    (0 : ℚ) < 2 ∧ (0 : ℚ) ≤ 7 ∧
    (extract_frames_response
        (collect_frames
          (fun j => decide (1 ≤ j ∧ j ≤ ffmpeg_frames_written 7 2 30)) 30)
        2).count =
      min 30 (Int.toNat ⌊(7 : ℚ) / 2⌋) :=
  ⟨by norm_num, by norm_num,
    (C8_frame_count 7 2 30 (by norm_num) (by norm_num)).1⟩

/-- C9: the /metadata handler's viewCount is the post's play count
whenever that attribute is present and converts to an integer, and
otherwise the post's video view count, and null when neither resolves. -/
theorem C9_view_count_resolution (post : Post) :
    (∀ n : ℤ, safe_int post.play_count = some n →
      reel_metadata_view_count post = some n) ∧
    (safe_int post.play_count = none →
      reel_metadata_view_count post = safe_int post.video_view_count) ∧
    (safe_int post.play_count = none → safe_int post.video_view_count = none →
      reel_metadata_view_count post = none) := by
  refine ⟨?_, ?_, ?_⟩
  · intro n hn
    unfold reel_metadata_view_count
    rw [hn]
  · intro h
    unfold reel_metadata_view_count
    rw [h]
  · intro h hv
    unfold reel_metadata_view_count
    rw [h, hv]

theorem C9_view_count_resolution_witness :
    safe_int (Post.mk (PyVal.int 500) (PyVal.int 100)).play_count = some 500 ∧
    reel_metadata_view_count (Post.mk (PyVal.int 500) (PyVal.int 100)) = some 500 :=
  ⟨rfl,
    (C9_view_count_resolution (Post.mk (PyVal.int 500) (PyVal.int 100))).1 500 rfl⟩

theorem extract_frames_response_invariant (frame_paths : List ℕ) (interval_sec : ℚ)
    (max_frames : ℕ) (h : frame_paths.length ≤ max_frames) :
    frames_response_invariant
      (extract_frames_response frame_paths interval_sec) max_frames := by
  by_cases he : frame_paths = []
  · simp [extract_frames_response, he, frames_response_invariant]
  · simp [extract_frames_response, he, frames_response_invariant, h]

/-- C10: every FramesResponse the frame-extraction endpoints build
satisfies count = |frames|, |frames| ≤ max_frames, and success exactly
when frames is non-empty; moreover the collected frame files always
form the contiguous numbered prefix 1..c stopping at the first missing
index. -/
theorem C10_frames_response_invariants (ex : ℕ → Bool) (max_frames : ℕ)
    (interval_sec start_time end_time : ℚ) :
    frames_response_invariant
      (extract_frames_response (collect_frames ex max_frames) interval_sec)
      max_frames ∧
    frames_response_invariant
      (extract_frames_response
        (extract_frames_in_range_paths ex start_time end_time max_frames)
        ((end_time - start_time) / max_frames))
      max_frames ∧
    (∃ c, c ≤ max_frames ∧
      collect_frames ex max_frames = (List.range c).map (fun j => 1 + j) ∧
      (∀ j, j < c → ex (1 + j) = true) ∧
      (c < max_frames → ex (1 + c) = false)) := by
  refine ⟨?_, ?_, ?_⟩
  · exact extract_frames_response_invariant _ _ _ (collect_from_length_le ex max_frames 1)
  · refine extract_frames_response_invariant _ _ _ ?_
    unfold extract_frames_in_range_paths
    by_cases hle : end_time - start_time ≤ 0
    · simp [hle]
    · simpa [hle] using collect_from_length_le ex max_frames 1
  · exact collect_from_spec ex max_frames 1

theorem C10_frames_response_invariants_witness :
    frames_response_invariant
      (extract_frames_response (collect_frames (fun j => decide (j ≤ 2)) 5) 2) 5 :=
  (C10_frames_response_invariants (fun j => decide (j ≤ 2)) 5 2 0 4).1
